import Mathlib

/-!
Verification development for the planning/templating core of the
audio-collection-tools repository (module
src/audio_collection_tools/mass_audio_transcoder.py).

Strings are modelled as lists of characters (Lean String is wrapped where
convenient).  Python regular-expression rewrites are embedded as the
equivalent direct string transformations; each definition carries a comment
naming the source construct it embeds.  Machine-level details that the
verified properties do not depend on (full unicode whitespace classes,
multi-byte percent-decoding) are modelled by their ASCII restrictions, noted
at each definition.
-/

namespace MassAudioTranscoder

/-- Helper: dropWhile never lengthens a list. -/
theorem length_dropWhile_le {α : Type} (p : α → Bool) (l : List α) :
    (l.dropWhile p).length ≤ l.length := by
  induction l with
  | nil => simp
  | cons a t ih =>
    by_cases h : p a
    · simp only [List.dropWhile_cons, h, if_true]
      exact Nat.le_succ_of_le ih
    · simp [List.dropWhile_cons, h]

/-- Helper: the tail of a list is no longer than the list. -/
theorem length_tail_le {α : Type} (l : List α) : l.tail.length ≤ l.length := by
  cases l <;> simp

/-- Whitespace class used by Python regex and str.strip, restricted to
ASCII whitespace characters. -/
def isPyWs (c : Char) : Bool :=
  c = ' ' ∨ c = '\t' ∨ c = '\n' ∨ c = '\r' ∨ c = Char.ofNat 11 ∨ c = Char.ofNat 12

/-- Embeds Python str.strip (no arguments): drop leading and trailing
whitespace. -/
def pyStrip (l : List Char) : List Char :=
  ((l.dropWhile isPyWs).reverse.dropWhile isPyWs).reverse

/-- Characters removed by the first cleaning pattern of
PATH_CLEANING_PATTERNS, the regex class [?*:;<>|\\]. -/
def illegalPathChar (c : Char) : Bool :=
  c = '?' ∨ c = '*' ∨ c = ':' ∨ c = ';' ∨ c = '<' ∨ c = '>' ∨ c = '|' ∨ c = '\\'

/-- Embeds re.sub of the class [?*:;<>|\\] with empty replacement:
delete every such character. -/
def cleanRule1 (l : List Char) : List Char := l.filter (fun c => ¬ illegalPathChar c)

/-- Quote-like characters of the second cleaning pattern, regex class
with double quote, backtick and the double-acute accent. -/
def quoteLikeChar (c : Char) : Bool :=
  c = '"' ∨ c = '`' ∨ c = Char.ofNat 733

/-- Embeds re.sub replacing quote-like characters with an ASCII apostrophe
(code point 39). -/
def cleanRule2 (l : List Char) : List Char :=
  l.map (fun c => if quoteLikeChar c then Char.ofNat 39 else c)

/-- Dot-or-space class of the anchored trim patterns. -/
def dotOrSpace (c : Char) : Bool := c = '.' ∨ c = ' '

/-- Embeds re.sub of anchored pattern: leading run of dots and spaces is
deleted. -/
def cleanRule3 (l : List Char) : List Char := l.dropWhile dotOrSpace

/-- Embeds re.sub of the end-anchored pattern: trailing run of dots and
spaces is deleted.  The Python dollar anchor also matches just before a
single final newline; that special case is not modelled (no rewritten
string in the verified properties ends in a newline). -/
def cleanRule4 (l : List Char) : List Char :=
  (l.reverse.dropWhile dotOrSpace).reverse

/-- Worker for cleanRule5: pend holds, reversed, the dots read so far that
may turn out to stand immediately before a separator. -/
def cleanRule5Go (pend : List Char) : List Char → List Char
  | [] => pend.reverse
  | c :: t =>
    if c = '.' then cleanRule5Go (c :: pend) t
    else if c = '/' then '/' :: cleanRule5Go [] t
    else pend.reverse ++ c :: cleanRule5Go [] t

/-- Embeds re.sub of pattern: one or more dots immediately followed by a
separator collapse into the separator (leftmost scanning, continuing after
each replacement, exactly as re.sub does). -/
def cleanRule5 (l : List Char) : List Char := cleanRule5Go [] l

/-- Worker for cleanRule6: when afterSep is set the scanner sits right
after an emitted separator (or after dots already absorbed by it), so dots
are dropped. -/
def cleanRule6Go (afterSep : Bool) : List Char → List Char
  | [] => []
  | c :: t =>
    if afterSep ∧ c = '.' then cleanRule6Go true t
    else if c = '/' then '/' :: cleanRule6Go true t
    else c :: cleanRule6Go false t

/-- Embeds re.sub of pattern: a separator followed by one or more dots
collapses into the separator. -/
def cleanRule6 (l : List Char) : List Char := cleanRule6Go false l

/-- Worker for cleanRule7: pend holds, reversed, the current whitespace
run; a finished run of two or more characters becomes one space. -/
def cleanRule7Go (pend : List Char) : List Char → List Char
  | [] => if 2 ≤ pend.length then [' '] else pend.reverse
  | c :: t =>
    if isPyWs c then cleanRule7Go (c :: pend) t
    else (if 2 ≤ pend.length then [' '] else pend.reverse) ++ c :: cleanRule7Go [] t

/-- Embeds re.sub of pattern: a run of two or more whitespace characters
becomes a single space. -/
def cleanRule7 (l : List Char) : List Char := cleanRule7Go [] l

mutual

/-- Worker for cleanRule8, state right after an emitted separator: the
separator absorbs following whitespace; a further separator is emitted by
its own match of the pattern. -/
def cleanRule8Slash : List Char → List Char
  | [] => []
  | c :: t =>
    if isPyWs c then cleanRule8Slash t
    else if c = '/' then '/' :: cleanRule8Slash t
    else c :: cleanRule8Norm [] t

/-- Worker for cleanRule8, normal state: pend holds, reversed, a pending
whitespace run which is deleted if a separator follows and kept
otherwise. -/
def cleanRule8Norm (pend : List Char) : List Char → List Char
  | [] => pend.reverse
  | c :: t =>
    if isPyWs c then cleanRule8Norm (c :: pend) t
    else if c = '/' then '/' :: cleanRule8Slash t
    else pend.reverse ++ c :: cleanRule8Norm [] t

end

/-- Embeds re.sub of pattern: optional whitespace, a separator, optional
whitespace, all replaced by the bare separator, so every separator absorbs
the whitespace runs adjacent to it on both sides. -/
def cleanRule8 (l : List Char) : List Char := cleanRule8Norm [] l

/-- Worker for cleanRule9: when afterSep is set the scanner sits right
after an emitted separator, so further separators of the same run are
dropped. -/
def cleanRule9Go (afterSep : Bool) : List Char → List Char
  | [] => []
  | c :: t =>
    if c = '/' then
      if afterSep then cleanRule9Go true t else '/' :: cleanRule9Go true t
    else c :: cleanRule9Go false t

/-- Embeds re.sub of pattern: a run of two or more separators becomes a
single separator. -/
def cleanRule9 (l : List Char) : List Char := cleanRule9Go false l

/-- Emit a finished maximal run of non-separator characters, truncating it
to its first 200 characters when it has 200 or more. -/
def emitRun (run : List Char) : List Char :=
  if 200 ≤ run.length then run.take 200 else run

/-- Worker for cleanRule10: pend holds, reversed, the current maximal run
of non-separator characters. -/
def cleanRule10Go (pend : List Char) : List Char → List Char
  | [] => emitRun pend.reverse
  | c :: t =>
    if c = '/' then emitRun pend.reverse ++ '/' :: cleanRule10Go [] t
    else cleanRule10Go (c :: pend) t

/-- Embeds re.sub of the group pattern matching 200 or more consecutive
non-separator characters, replaced by the first 200 of them: each maximal
run of non-separator characters of length at least 200 is truncated to its
first 200 characters. -/
def cleanRule10 (l : List Char) : List Char := cleanRule10Go [] l

/-- Embeds clean_path: apply the ten PATH_CLEANING_PATTERNS rewrites in
their declared order, each operating on the output of the previous one. -/
def cleanPathL (l : List Char) : List Char :=
  cleanRule10 (cleanRule9 (cleanRule8 (cleanRule7 (cleanRule6 (cleanRule5
    (cleanRule4 (cleanRule3 (cleanRule2 (cleanRule1 l)))))))))

/-- String-level wrapper of clean_path. -/
def clean_path (s : String) : String := String.mk (cleanPathL s.data)

/-- Path segments: the list split at every separator character, keeping
empty segments, mirroring how the truncation pattern sees maximal runs of
non-separator characters. -/
def segs : List Char → List (List Char)
  | [] => [[]]
  | c :: t =>
    if c = '/' then [] :: segs t
    else
      match segs t with
      | [] => [[c]]
      | h :: r => (c :: h) :: r

/-- Helper: segs never returns the empty list. -/
theorem segs_ne_nil (l : List Char) : segs l ≠ [] := by
  cases l with
  | nil => simp [segs]
  | cons c t =>
    simp only [segs]
    by_cases h : c = '/'
    · simp [h]
    · simp only [h, if_false]
      cases segs t <;> simp

/-- Helper: a separator-free list is a single segment. -/
theorem segs_noslash (run : List Char) (h : ∀ c ∈ run, c ≠ '/') :
    segs run = [run] := by
  induction run with
  | nil => simp [segs]
  | cons c t ih =>
    have hc : c ≠ '/' := h c (by simp)
    have ht := ih (fun x hx => h x (by simp [hx]))
    simp [segs, hc, ht]

/-- Helper: prepending a separator-free run extends the first segment. -/
theorem segs_append (run : List Char) (h : ∀ c ∈ run, c ≠ '/')
    (m : List Char) (hd : List Char) (tl : List (List Char))
    (hm : segs m = hd :: tl) : segs (run ++ m) = (run ++ hd) :: tl := by
  induction run with
  | nil => simpa using hm
  | cons c t ih =>
    have hc : c ≠ '/' := h c (by simp)
    have ht := ih (fun x hx => h x (by simp [hx]))
    simp [segs, hc, ht]

/-- Helper: emitRun is exactly truncation to the first 200 characters. -/
theorem emitRun_eq_take (r : List Char) : emitRun r = r.take 200 := by
  unfold emitRun
  by_cases h : 200 ≤ r.length
  · simp [h]
  · have : r.length ≤ 200 := Nat.le_of_lt (Nat.lt_of_not_le h)
    simp [h, List.take_of_length_le this]

/-- Helper: segs of any list destructures into head and tail. -/
theorem segs_destruct (l : List Char) : ∃ hd tl, segs l = hd :: tl := by
  cases hseg : segs l with
  | nil => exact absurd hseg (segs_ne_nil l)
  | cons a b => exact ⟨a, b, rfl⟩

/-- Helper: worker characterization of the truncating rule, generalized
over the pending separator-free run. -/
theorem cleanRule10Go_segs : ∀ (l pend hd : List Char) (tl : List (List Char)),
    segs l = hd :: tl → (∀ c ∈ pend, c ≠ '/') →
    segs (cleanRule10Go pend l) =
      (pend.reverse ++ hd).take 200 :: tl.map (fun r => r.take 200) := by
  intro l
  induction l with
  | nil =>
    intro pend hd tl hseg hp
    have hhd : hd = ([] : List Char) ∧ tl = [] := by
      have : ([] : List Char) :: ([] : List (List Char)) = hd :: tl := by
        rw [← hseg]; rfl
      injection this with h1 h2
      exact ⟨h1.symm, h2.symm⟩
    have hrev : ∀ c ∈ pend.reverse, c ≠ '/' := fun c hc => hp c (List.mem_reverse.mp hc)
    simp [cleanRule10Go, emitRun_eq_take, hhd.1, hhd.2,
      segs_noslash _ (fun c hc => hrev c (List.mem_of_mem_take hc))]
  | cons c t ih =>
    intro pend hd tl hseg hp
    obtain ⟨hd2, tl2, hm⟩ := segs_destruct t
    by_cases hc : c = '/'
    · have hsplit : ([] : List Char) :: hd2 :: tl2 = hd :: tl := by
        rw [← hseg]; simp [segs, hc, hm]
      injection hsplit with h1 h2
      have hrun : ∀ x ∈ emitRun pend.reverse, x ≠ '/' := by
        intro x hx
        rw [emitRun_eq_take] at hx
        exact hp x (List.mem_reverse.mp (List.mem_of_mem_take hx))
      have hinner : segs (cleanRule10Go [] t) =
          hd2.take 200 :: tl2.map (fun r => r.take 200) := by
        simpa using ih [] hd2 tl2 hm (by simp)
      have hmid : segs ('/' :: cleanRule10Go [] t) =
          [] :: hd2.take 200 :: tl2.map (fun r => r.take 200) := by
        simp [segs, hinner]
      simp only [cleanRule10Go, hc, if_true]
      rw [segs_append (emitRun pend.reverse) hrun _ _ _ hmid, emitRun_eq_take]
      simp [← h1, ← h2]
    · have hsplit : (c :: hd2) :: tl2 = hd :: tl := by
        rw [← hseg]; simp [segs, hc, hm]
      injection hsplit with h1 h2
      have hpend : ∀ x ∈ c :: pend, x ≠ '/' := by
        intro x hx
        rcases List.mem_cons.mp hx with hx1 | hx2
        · simpa [hx1] using hc
        · exact hp x hx2
      have := ih (c :: pend) hd2 tl2 hm hpend
      simp only [cleanRule10Go, hc, if_false]
      rw [this, ← h1, ← h2]
      simp [List.append_assoc]

/-- Helper: the truncating rule maps every segment to its first 200
characters. -/
theorem cleanRule10_segs (l : List Char) :
    segs (cleanRule10 l) = (segs l).map (fun r => r.take 200) := by
  obtain ⟨hd, tl, hm⟩ := segs_destruct l
  have := cleanRule10Go_segs l [] hd tl hm (by simp)
  simpa [cleanRule10, hm] using this

set_option maxRecDepth 20000

/-- C8: clean_path maps the string with a colon and a question mark to the
same string with those illegal characters stripped; it truncates every
path segment (maximal run of non-separator characters) longer than 200
characters to its first 200 characters, so a segment of 250 letter-a
characters becomes 200; it collapses a run of dots adjacent to a path
separator into the separator; and it applies its rewrite rules in the
fixed declared order of PATH_CLEANING_PATTERNS. -/
theorem clean_path_spec_examples :
    clean_path "My: Song?" = "My Song" ∧
    clean_path (String.mk (List.replicate 250 'a')) = String.mk (List.replicate 200 'a') ∧
    clean_path "a/../b" = "a/b" ∧
    (∀ l : List Char, segs (cleanRule10 l) = (segs l).map (fun r => r.take 200)) ∧
    (∀ s : String, clean_path s =
      String.mk (cleanRule10 (cleanRule9 (cleanRule8 (cleanRule7 (cleanRule6
        (cleanRule5 (cleanRule4 (cleanRule3 (cleanRule2 (cleanRule1 s.data))))))))))) :=
  ⟨by decide, by decide, by decide, cleanRule10_segs, fun _ => rfl⟩

/-!
Template expander: embeds expand_template, its replacer closure and the
regex scan for placeholders delimited by angle brackets.
-/

/-- Embeds str.split on the plus character with maxsplit 2: the result has
one, two or three parts, the last part keeping any remaining plus
characters. -/
def splitPlusMax2 (l : List Char) : List (List Char) :=
  let p1 := l.takeWhile (fun c => c ≠ '+')
  if p1.length = l.length then [l]
  else
    let r1 := l.drop (p1.length + 1)
    let p2 := r1.takeWhile (fun c => c ≠ '+')
    if p2.length = r1.length then [p1, r1]
    else [p1, p2, r1.drop (p2.length + 1)]

/-- Helper: the maxsplit-2 split yields one, two or three parts. -/
theorem splitPlusMax2_shape (l : List Char) :
    (∃ a, splitPlusMax2 l = [a]) ∨ (∃ a b, splitPlusMax2 l = [a, b]) ∨
    (∃ a b c, splitPlusMax2 l = [a, b, c]) := by
  dsimp only [splitPlusMax2]
  split
  · exact Or.inl ⟨_, rfl⟩
  · split
    · exact Or.inr (Or.inl ⟨_, _, rfl⟩)
    · exact Or.inr (Or.inr ⟨_, _, _, rfl⟩)

/-- Decidable equality for Except values over decidable components, used
to evaluate embedded fallible functions on concrete inputs. -/
instance {ε α : Type} [DecidableEq ε] [DecidableEq α] : DecidableEq (Except ε α) :=
  fun x y =>
    match x, y with
    | .ok a, .ok b =>
      if h : a = b then isTrue (by rw [h]) else
        isFalse (by intro hc; injection hc; contradiction)
    | .error a, .error b =>
      if h : a = b then isTrue (by rw [h]) else
        isFalse (by intro hc; injection hc; contradiction)
    | .ok _, .error _ => isFalse (by intro hc; cases hc)
    | .error _, .ok _ => isFalse (by intro hc; cases hc)

/-- Emit the replacement for a resolved placeholder: a missing value
erases the whole placeholder, a present value is wrapped in the
conditional literal prelude and suffix; with slashes disallowed every
separator in the value becomes a hyphen (embeds the closing lines of the
replacer closure in expand_template). -/
def emitPlaceholder (resolve : String → Option String) (allowSlash : Bool)
    (lit1 v lit2 : List Char) : List Char :=
  match resolve (String.mk v) with
  | none => []
  | some val =>
    let valC := if val ≠ "" ∧ ¬ allowSlash then
        val.data.map (fun c => if c = '/' then '-' else c)
      else val.data
    lit1 ++ valC ++ lit2

/-- Embeds the replacer closure of expand_template: an absent or empty
group expands to the empty string; otherwise the group is split on plus
with maxsplit 2 into variable, variable-plus-suffix, or
prelude-variable-suffix; the branch for more than three parts raises
TemplateError (unreachable, because maxsplit 2 caps the parts at
three). -/
def templateReplacer (resolve : String → Option String) (allowSlash : Bool)
    (inner : List Char) : Except String (List Char) :=
  if inner.isEmpty then .ok []
  else
    match splitPlusMax2 inner with
    | [v] => .ok (emitPlaceholder resolve allowSlash [] v [])
    | [v, suf] => .ok (emitPlaceholder resolve allowSlash [] v suf)
    | [lit1, v, suf] => .ok (emitPlaceholder resolve allowSlash lit1 v suf)
    | _ => .error "TemplateError: Illegal number of elements in expression"

/-- Embeds the re.sub scan of expand_template over the placeholder
pattern: an open angle bracket collects following characters into a
placeholder body; a close bracket submits the body to the replacer; a
second open bracket means the first could not match, so it is emitted
literally and scanning reopens at the second; an unterminated bracket
leaves the remainder literal.  The accumulator holds the reversed body of
the currently open placeholder, if any. -/
def expandScan (resolve : String → Option String) (allowSlash : Bool) :
    Option (List Char) → List Char → Except String (List Char)
  | none, [] => .ok []
  | none, c :: t =>
    if c = '<' then expandScan resolve allowSlash (some []) t
    else do
      let rest ← expandScan resolve allowSlash none t
      .ok (c :: rest)
  | some innerRev, [] => .ok ('<' :: innerRev.reverse)
  | some innerRev, c :: t =>
    if c = '>' then do
      let rep ← templateReplacer resolve allowSlash innerRev.reverse
      let rest ← expandScan resolve allowSlash none t
      .ok (rep ++ rest)
    else if c = '<' then do
      let rest ← expandScan resolve allowSlash (some []) t
      .ok (('<' :: innerRev.reverse) ++ rest)
    else expandScan resolve allowSlash (some (c :: innerRev)) t

/-- Embeds expand_template: expand placeholders against a variable
resolver; the resolver is the pure optional-string-valued function of the
component contract (the dict form accepted by the source is a special case
of such a function). -/
def expand_template (template : String) (resolve : String → Option String)
    (allowSlash : Bool) : Except String String :=
  (expandScan resolve allowSlash none template.data).map String.mk

/-- Helper: the replacer never raises, because maxsplit 2 caps the split
at three parts, leaving the error branch unreachable. -/
theorem templateReplacer_ok (resolve : String → Option String) (allowSlash : Bool)
    (inner : List Char) : ∃ out, templateReplacer resolve allowSlash inner = .ok out := by
  unfold templateReplacer
  by_cases h : inner.isEmpty
  · exact ⟨[], by simp [h]⟩
  · rcases splitPlusMax2_shape inner with ⟨a, hs⟩ | ⟨a, b, hs⟩ | ⟨a, b, c, hs⟩ <;>
      simp [h, hs]

/-- Helper: the whole template scan never raises. -/
theorem expandScan_ok (resolve : String → Option String) (allowSlash : Bool) :
    ∀ (l : List Char) (st : Option (List Char)),
      ∃ out, expandScan resolve allowSlash st l = .ok out := by
  intro l
  induction l with
  | nil =>
    intro st
    cases st <;> exact ⟨_, rfl⟩
  | cons c t ih =>
    intro st
    cases st with
    | none =>
      by_cases h : c = '<'
      · simpa [expandScan, h] using ih (some [])
      · obtain ⟨out, hout⟩ := ih none
        refine ⟨c :: out, ?_⟩
        simp only [expandScan, h, if_false]
        rw [hout]
        rfl
    | some innerRev =>
      by_cases h1 : c = '>'
      · obtain ⟨rep, hrep⟩ := templateReplacer_ok resolve allowSlash innerRev.reverse
        obtain ⟨out, hout⟩ := ih none
        refine ⟨rep ++ out, ?_⟩
        simp only [expandScan, h1, if_true]
        rw [hrep, hout]
        rfl
      · by_cases h2 : c = '<'
        · obtain ⟨out, hout⟩ := ih (some [])
          refine ⟨('<' :: innerRev.reverse) ++ out, ?_⟩
          simp only [expandScan, h1, h2, if_false, if_true]
          rw [hout]
          rfl
        · simpa [expandScan, h1, h2] using ih (some (c :: innerRev))

/-- C5: corrected behaviour of placeholders with more than three
plus-separated segments.  The claim says a four-segment placeholder raises
TemplateError for every resolver; in fact split with maxsplit 2 caps the
parts at three, the raising branch is unreachable, and the placeholder is
read as prelude, variable and a suffix that keeps the extra plus.  Shown
at the four-segment placeholder of the claim, together with the general
no-raise fact. -/
theorem expand_template_four_segments_no_raise :
    expand_template "<a+b+c+d>" (fun v => if v = "b" then some "X" else none) true =
      .ok "aXc+d" ∧
    (∀ (t : String) (r : String → Option String) (b : Bool),
      ∃ s, expand_template t r b = .ok s) := by
  constructor
  · decide
  · intro t r b
    obtain ⟨out, hout⟩ := expandScan_ok r b t.data none
    exact ⟨String.mk out, by unfold expand_template; rw [hout]; rfl⟩

/-!
Embeddings of the posixpath operations used by the planning core, and of
small Python string helpers.
-/

/-- Embeds os.path.basename for posix paths: the part after the last
separator. -/
def pyBasename (l : List Char) : List Char :=
  (l.reverse.takeWhile (fun c => c ≠ '/')).reverse

/-- Embeds os.path.dirname for posix paths: the part up to the last
separator, with trailing separators stripped unless the head consists only
of separators. -/
def pyDirname (l : List Char) : List Char :=
  let restRev := l.reverse.dropWhile (fun c => c ≠ '/')
  if restRev ≠ [] ∧ restRev.any (fun c => c ≠ '/') then
    (restRev.dropWhile (fun c => c = '/')).reverse
  else restRev.reverse

/-- Embeds os.path.splitext restricted to a basename (no separators): the
extension starts at the last dot, except that dots leading the whole
basename never open an extension. -/
def splitextBasename (bn : List Char) : List Char × List Char :=
  let extRev := bn.reverse.takeWhile (fun c => c ≠ '.')
  if extRev.length = bn.length then (bn, [])
  else
    let stem := bn.take (bn.length - extRev.length - 1)
    if stem.any (fun c => c ≠ '.') then
      (stem, bn.drop (bn.length - extRev.length - 1))
    else (bn, [])

/-- ASCII lower-casing of one character, embedding str.lower for the
character range the tool manipulates. -/
def pyLowerChar (c : Char) : Char :=
  if 'A' ≤ c ∧ c ≤ 'Z' then Char.ofNat (c.toNat + 32) else c

/-- ASCII lower-casing of a string. -/
def pyLower (s : String) : String := String.mk (s.data.map pyLowerChar)

/-- Embeds get_normalized_extension: the splitext extension of the
filename, lower-cased, without its leading dot. -/
def get_normalized_extension (l : List Char) : List Char :=
  ((splitextBasename (pyBasename l)).2.map pyLowerChar).drop 1

/-- Embeds the two-argument os.path.join for posix paths: an absolute
second component discards the first; otherwise the components are joined
with exactly one separator. -/
def pyJoin (a b : List Char) : List Char :=
  if b.head? = some '/' then b
  else if a = [] ∨ a.getLast? = some '/' then a ++ b
  else a ++ '/' :: b

/-- Embeds os.path.isabs for posix paths. -/
def pyIsabs (l : List Char) : Bool := l.head? = some '/'

/-- Embeds str.zfill: left-pad with zeros to the requested width, keeping
a leading sign in front of the padding. -/
def pyZfill (s : List Char) (w : Nat) : List Char :=
  if w ≤ s.length then s
  else
    match s with
    | [] => List.replicate w '0'
    | c :: t =>
      if c = '+' ∨ c = '-' then c :: (List.replicate (w - s.length) '0' ++ t)
      else List.replicate (w - s.length) '0' ++ s

/-- Numeric value of a digit run. -/
def digitsVal (l : List Char) : Int :=
  l.foldl (fun acc c => acc * 10 + ((c.toNat - 48 : Nat) : Int)) 0

/-- Embeds the int constructor on strings: optional surrounding
whitespace, optional sign, then decimal digits; anything else raises
ValueError, modelled as no value.  Underscore digit grouping accepted by
Python is not modelled (no verified property feeds underscores). -/
def pyInt (s : List Char) : Option Int :=
  let t := pyStrip s
  match t with
  | [] => none
  | c :: rest =>
    let digits := if c = '-' ∨ c = '+' then rest else t
    let sign : Int := if c = '-' then -1 else 1
    if digits ≠ [] ∧ digits.all Char.isDigit then some (sign * digitsVal digits)
    else none

/-- Embeds zeropad: decimal rendering of the number, zero-filled to the
given length. -/
def zeropad (n : Int) (w : Nat) : List Char := pyZfill (toString n).data w

/-!
Data model: TranscodeSpec, Source and its methods.
-/

/-- Codec identifiers supported by FFMPEG_CODEC_OPTS, with the copy
sentinel. -/
inductive Codec
  | mp3
  | aac
  | fdkaac
  | vorbis
  | copy
deriving DecidableEq, Repr

/-- Embeds FFMPEG_CODEC_EXT. -/
def FFMPEG_CODEC_EXT : Codec → String
  | .vorbis => "ogg"
  | .mp3 => "mp3"
  | .aac => "m4a"
  | .fdkaac => "m4a"
  | .copy => "*"

/-- Embeds TranscodeSpec. -/
structure TranscodeSpec where
  codec : Codec
  force_transcode : Bool
  quality : Option Int
  bitrate : Option Int
deriving DecidableEq, Repr

/-- Embeds Source: an audio file source with positional and optional
playlist context. -/
structure Source where
  filepath : String
  transcode_spec : TranscodeSpec
  filenumber : Int
  totalfiles : Int
  playlist_file : Option String
  playlist_filenumber : Option Int
  playlist_totalfiles : Option Int
deriving DecidableEq, Repr

/-- Embeds Source.basename: basename of the audio file, optionally
without the extension. -/
def Source.basename (s : Source) (includeExt : Bool) : String :=
  let bn := pyBasename s.filepath.data
  String.mk (if includeExt then bn else (splitextBasename bn).1)

/-- Embeds Source.filetype: lower-cased normalized extension, or no value
when it cannot be determined. -/
def Source.filetype (s : Source) : Option String :=
  let ext := get_normalized_extension s.filepath.data
  if 0 < ext.length then some (String.mk ext) else none

/-- Embeds Source.parentdir_basename. -/
def Source.parentdir_basename (s : Source) : String :=
  String.mk (pyBasename (pyDirname s.filepath.data))

/-- Embeds get_playlist_name: basename of the playlist file without its
extension. -/
def get_playlist_name (f : String) : String :=
  String.mk (splitextBasename (pyBasename f.data)).1

/-!
Tag-backed variable resolver.  The Tags collaborator (mutagen-backed
lookup joining multi-valued tags) is modelled as an opaque function from
tag name to optional consolidated value, per the component contract; the
resolver embeds tag_variable_resolver over it.  Python exceptions escaping
the resolver are modelled as Except errors.
-/

/-- Truthiness of an optional integer in Python: present and nonzero. -/
def truthyOptInt : Option Int → Bool
  | none => false
  | some n => n ≠ 0

/-- Shared tail of the numeric branches: Python expression returning the
zero-padded parse of the value if the value is truthy else no value, with
a parse failure caught and degraded to no value. -/
def intPadOrNone (s : String) : Option String :=
  if s = "" then none
  else
    match pyInt s.data with
    | some n => some (String.mk (zeropad n 2))
    | none => none

/-- Embeds the tracknumber branch of the resolver: take the numerator of
a slash-separated value, then zero-pad its parse to two digits; parse
failures degrade to no value. -/
def tracknumberValue (tags : String → Option String) : Option String :=
  match tags "tracknumber" with
  | none => none
  | some s =>
    let s2 := if s ≠ "" ∧ s.contains '/' then
        String.mk (s.data.takeWhile (fun c => c ≠ '/'))
      else s
    intPadOrNone s2

/-- Embeds the tracktotal branch of the resolver: an explicit tracktotal
tag is parsed and padded; otherwise the denominator of the tracknumber tag
is used.  When the tracknumber tag is also absent, the membership test for
the slash runs on a None value and raises TypeError; this raising path is
the modelled error. -/
def tracktotalValue (tags : String → Option String) : Except String (Option String) :=
  let val := tags "tracktotal"
  if val = none ∨ val = some "" then
    match tags "tracknumber" with
    | none => .error "TypeError: argument of type NoneType is not iterable"
    | some tn =>
      if ¬ tn.contains '/' then .ok none
      else
        .ok (intPadOrNone (String.mk
          (((tn.data.dropWhile (fun c => c ≠ '/')).drop 1).takeWhile (fun c => c ≠ '/'))))
  else
    match val with
    | some s => .ok (intPadOrNone s)
    | none => .ok none

/-- Embeds tag_variable_resolver: the returned resolver closure, mapping
a case-insensitive variable name to an optional value, with unknown names
falling back to a direct tag lookup. -/
def tag_variable_resolver (tags : String → Option String) (source : Source)
    (v : String) : Except String (Option String) :=
  let var := pyLower v
  if var = "a" ∨ var = "artist" then .ok (tags "artist")
  else if var = "b" ∨ var = "album" then .ok (tags "album")
  else if var = "t" ∨ var = "title" then .ok (tags "title")
  else if var = "aa" ∨ var = "albumartist" then .ok (tags "albumartist")
  else if var = "aaa" ∨ var = "albumartist_or_artist" then
    .ok (match tags "albumartist" with
      | some s => if s = "" then tags "artist" else some s
      | none => tags "artist")
  else if var = "tn" ∨ var = "track" ∨ var = "tracknumber" then
    .ok (tracknumberValue tags)
  else if var = "tt" ∨ var = "tracktotal" then tracktotalValue tags
  else if var = "dn" ∨ var = "discnumber" then
    .ok (match tags "discnumber" with
      | none => none
      | some s => if s = "" then none else some (String.mk (pyZfill s.data 2)))
  else if var = "filename" then .ok (some (source.basename true))
  else if var = "filename_noext" then .ok (some (source.basename false))
  else if var = "parentdir_basename" then .ok (some source.parentdir_basename)
  else if var = "ext" then .ok source.filetype
  else if var = "filenumber" then
    .ok (some (String.mk (zeropad source.filenumber (toString source.totalfiles).length)))
  else if var = "totalfiles" then .ok (some (toString source.totalfiles))
  else if var = "playlist_name" then
    .ok (match source.playlist_file with
      | some pf => if pf = "" then none else some (get_playlist_name pf)
      | none => none)
  else if var = "playlist_filenumber" then
    .ok (if truthyOptInt source.playlist_filenumber ∧
            truthyOptInt source.playlist_totalfiles then
        match source.playlist_filenumber, source.playlist_totalfiles with
        | some fn, some tf => some (String.mk (zeropad fn (toString tf).length))
        | _, _ => none
      else none)
  else if var = "playlist_totalfiles" then
    .ok (match source.playlist_totalfiles with
      | some tf => if tf = 0 then none else some (toString tf)
      | none => none)
  else .ok (tags var)

/-- C4: code_bug evidence.  The claim says the resolver never raises and
in particular resolving tracktotal with both the tracktotal and the
tracknumber tags absent yields no value; in fact that case runs a slash
membership test on a None value and raises TypeError.  Shown on a concrete
source with no readable tags, for both spellings of the variable, next to
a neighbouring branch that does degrade silently. -/
theorem tag_variable_resolver_tracktotal_raises :
    tag_variable_resolver (fun _ => none)
        ⟨"/music/a.mp3", ⟨Codec.mp3, false, none, none⟩, 1, 1, none, none, none⟩
        "tracktotal" =
      .error "TypeError: argument of type NoneType is not iterable" ∧
    tag_variable_resolver (fun _ => none)
        ⟨"/music/a.mp3", ⟨Codec.mp3, false, none, none⟩, 1, 1, none, none, none⟩
        "tt" =
      .error "TypeError: argument of type NoneType is not iterable" ∧
    tag_variable_resolver (fun _ => none)
        ⟨"/music/a.mp3", ⟨Codec.mp3, false, none, none⟩, 1, 1, none, none, none⟩
        "tracknumber" = .ok none := by
  refine ⟨?_, ?_, ?_⟩ <;> decide

/-!
Target path generation: embeds generate_target_path.  The tag-backed
resolver is passed in as the pure optional-valued resolver parameter (its
concrete embedding with failure semantics is tag_variable_resolver above;
the claims about generate_target_path quantify over the resolver).
-/

/-- Embeds Python str.endswith via suffix testing on character lists. -/
def pyEndsWith (l suf : List Char) : Bool := suf.isSuffixOf l

/-- Embeds the misuse test of generate_target_path: the sanitized and
stripped expansion is empty, ends in a separator, or is absolute. -/
def badTemplateResult (r : List Char) : Bool :=
  r.length = 0 ∨ r.getLast? = some '/' ∨ pyIsabs r

/-- Embeds the fallback naming of generate_target_path: the sanitized
join of the parent directory basename and the filename without its
extension. -/
def fallbackName (source : Source) : List Char :=
  cleanPathL (pyJoin source.parentdir_basename.data (source.basename false).data)

/-- Embeds the extension selection of generate_target_path: the codec
table extension for a real codec, the lower-cased source extension in copy
mode (no value when the source has no extension). -/
def extFor (source : Source) : Option String :=
  if source.transcode_spec.codec ≠ Codec.copy then
    some (FFMPEG_CODEC_EXT source.transcode_spec.codec)
  else source.filetype

/-- Embeds the duplicate-extension guard of generate_target_path: append
a dot and the extension unless the name already ends with them. -/
def withExt (name : List Char) (ext : String) : List Char :=
  if ¬ pyEndsWith name ('.' :: ext.data) then name ++ '.' :: ext.data else name

/-- Embeds generate_target_path: expand the template with slashes
disallowed in values, sanitize and strip, fall back to the parent-dir
naming on a bad result, append the extension and join under the
destination directory.  In copy mode with an extensionless source, the
Python concatenation of a dot with a None extension raises TypeError,
modelled as the error branch. -/
def generate_target_path (resolve : String → Option String) (source : Source)
    (template : String) (destdir : String) : Except String String :=
  match expand_template template resolve false with
  | .error e => .error e
  | .ok expanded =>
    let r0 := pyStrip (cleanPathL expanded.data)
    let name := if badTemplateResult r0 then fallbackName source else r0
    match extFor source with
    | none => .error "TypeError: unsupported concatenation of str and NoneType"
    | some ext => .ok (String.mk (pyJoin destdir.data (withExt name ext)))

/-- C2: counterexample.  The fallback itself is never re-validated: a
source whose parent directory basename consists only of characters the
sanitizer strips yields an absolute fallback name, and the final join then
discards the destination root, so the result is not under the destination
root as the claim asserts. -/
theorem generate_target_path_escapes_destdir :
    generate_target_path (fun _ => none)
        ⟨"/???/b.mp3", ⟨Codec.mp3, false, none, none⟩, 1, 1, none, none, none⟩
        "" "/dest" = .ok "/b.mp3" ∧
    "/dest".data.isPrefixOf "/b.mp3".data = false := by
  refine ⟨?_, ?_⟩ <;> decide

/-- Helper: the name with its extension appended is never empty. -/
theorem withExt_ne_nil (name : List Char) (ext : String) : withExt name ext ≠ [] := by
  unfold withExt
  by_cases h : pyEndsWith name ('.' :: ext.data)
  · simp only [h, not_true, if_neg, if_false]
    intro hn
    rw [hn] at h
    unfold pyEndsWith at h
    rw [List.isSuffixOf_iff_suffix] at h
    have := List.IsSuffix.length_le h
    simp at this
  · simp [h]

/-- Helper: joining a relative component under a directory keeps the
directory as a prefix of the result. -/
theorem pyJoin_keeps_root (dd b : List Char) (h : pyIsabs b = false) :
    dd.isPrefixOf (pyJoin dd b) = true := by
  unfold pyJoin
  have hb : ¬ b.head? = some '/' := by
    unfold pyIsabs at h
    simpa using h
  simp only [hb, if_neg, if_false, decide_eq_true_eq]
  by_cases h2 : dd = [] ∨ dd.getLast? = some '/'
  · simp only [h2, if_true]
    rw [List.isPrefixOf_iff_prefix]
    exact List.prefix_append dd b
  · simp only [h2, if_false]
    rw [List.isPrefixOf_iff_prefix]
    exact List.prefix_append dd ('/' :: b)

/-- C2 amended: when the sanitized, stripped template expansion is empty,
ends in a separator, or is absolute, generate_target_path switches to the
sanitized parent-dir/filename fallback; the produced name with its
extension is always non-empty; and the result stays under the destination
root whenever the chosen name (expansion or unrechecked fallback) is not
itself absolute.  The extension must be determinable (always true off copy
mode); in copy mode an extensionless source raises instead. -/
theorem generate_target_path_fallback_amended :
    (∀ (resolve : String → Option String) (source : Source)
        (template destdir e ext : String),
      expand_template template resolve false = .ok e →
      extFor source = some ext →
      generate_target_path resolve source template destdir =
        .ok (String.mk (pyJoin destdir.data
          (withExt (if badTemplateResult (pyStrip (cleanPathL e.data)) then
              fallbackName source
            else pyStrip (cleanPathL e.data)) ext)))) ∧
    (∀ (name : List Char) (ext : String), withExt name ext ≠ []) ∧
    (∀ (dd b : List Char), pyIsabs b = false →
      dd.isPrefixOf (pyJoin dd b) = true) := by
  refine ⟨?_, withExt_ne_nil, pyJoin_keeps_root⟩
  intro resolve source template destdir e ext hexp hext
  unfold generate_target_path
  rw [hexp, hext]

/-- C2 amended, witness: the amended statement applied to a concrete
source, template and resolver, with every hypothesis discharged by
evaluation. -/
theorem generate_target_path_fallback_amended_witness :
    generate_target_path (fun v => if v = "title" then some "X" else none)
        ⟨"/m/a.mp3", ⟨Codec.mp3, false, none, none⟩, 1, 1, none, none, none⟩
        "<title>" "/dest" =
      .ok (String.mk (pyJoin "/dest".data
        (withExt (if badTemplateResult (pyStrip (cleanPathL "X".data)) then
            fallbackName ⟨"/m/a.mp3", ⟨Codec.mp3, false, none, none⟩, 1, 1, none,
              none, none⟩
          else pyStrip (cleanPathL "X".data)) "mp3"))) :=
  generate_target_path_fallback_amended.1
    (fun v => if v = "title" then some "X" else none)
    ⟨"/m/a.mp3", ⟨Codec.mp3, false, none, none⟩, 1, 1, none, none, none⟩
    "<title>" "/dest" "X" "mp3" (by decide) (by decide)

/-!
Source resolution helpers: audio file and playlist type detection, and
the playlist line grammars.
-/

/-- Embeds fnmatch.fnmatch for the patterns the source uses, all of the
form star followed by a literal tail: the star matches any run of
characters (possibly empty), so the name must end with the literal tail.
A pattern without a leading star is a literal match (unused by the
source).  On posix fnmatch applies no case normalization beyond the
explicit lower call at every call site. -/
def fnmatchStar (nameLower : List Char) (pattern : String) : Bool :=
  match pattern.data with
  | '*' :: rest => rest.isSuffixOf nameLower
  | other => other = nameLower

/-- Embeds INPUT_AUDIOFILE_PATTERNS. -/
def INPUT_AUDIOFILE_PATTERNS : List String :=
  ["*.mp3", "*.ogg", "*.flac", "*.m4a", "*.mpc", "*.wav"]

/-- Embeds is_audio_file: the lowered basename matches one of the known
audio patterns. -/
def is_audio_file (filename : String) : Bool :=
  INPUT_AUDIOFILE_PATTERNS.any
    (fun p => fnmatchStar ((pyBasename filename.data).map pyLowerChar) p)

/-- Embeds is_pls_playlist. -/
def is_pls_playlist (filename : String) : Bool :=
  fnmatchStar ((pyBasename filename.data).map pyLowerChar) "*.pls"

/-- Embeds is_m3u_playlist: the source iterates over the two patterns for
m3u and m3u8 but the loop body tests the hardcoded m3u pattern and ignores
the loop variable; embedded faithfully, so the m3u8 pattern never
matches. -/
def is_m3u_playlist (filename : String) : Bool :=
  (["*.m3u", "*.m3u8"] : List String).any
    (fun _ => fnmatchStar ((pyBasename filename.data).map pyLowerChar) "*.m3u")

/-- Embeds is_playlist. -/
def is_playlist (filename : String) : Bool :=
  is_pls_playlist filename || is_m3u_playlist filename

/-- Hexadecimal value of one character, if any. -/
def hexVal (c : Char) : Option Nat :=
  if '0' ≤ c ∧ c ≤ '9' then some (c.toNat - 48)
  else if 'a' ≤ c ∧ c ≤ 'f' then some (c.toNat - 87)
  else if 'A' ≤ c ∧ c ≤ 'F' then some (c.toNat - 55)
  else none

/-- Embeds urllib.parse.unquote restricted to single-byte escapes: a
percent sign followed by two hexadecimal digits decodes to that code
point, other text passes through.  Runs of escapes forming multi-byte
UTF-8 sequences are not modelled (no verified property decodes them). -/
def pyUnquote : List Char → List Char
  | [] => []
  | '%' :: a :: b :: t =>
    match hexVal a, hexVal b with
    | some ha, some hb => Char.ofNat (16 * ha + hb) :: pyUnquote t
    | _, _ => '%' :: pyUnquote (a :: b :: t)
  | c :: t => c :: pyUnquote t

/-- Embeds the shared file URI handling of the extract functions: a path
with the file scheme loses the scheme and is percent-decoded. -/
def stripFileUri (l : List Char) : List Char :=
  if "file://".data.isPrefixOf l then pyUnquote (l.drop 7) else l

/-- Embeds the per-line regex of extract_pls_paths: start anchor, the
word File, one or more decimal digits, an equals sign, then the rest of
the line as the captured path.  Lines are modelled without their
terminating newline, which the regex excludes from the capture anyway. -/
def plsLineMatch (line : List Char) : Option (List Char) :=
  if "File".data.isPrefixOf line then
    let rest := line.drop 4
    let ds := rest.takeWhile Char.isDigit
    let rest2 := rest.drop ds.length
    if ds ≠ [] ∧ rest2.head? = some '=' then some rest2.tail else none
  else none

/-- Embeds extract_pls_paths: matching lines with a non-blank captured
path contribute the path, after file URI stripping and decoding, if it is
a recognized audio file; order follows the file lines. -/
def extract_pls_paths : List String → List String
  | [] => []
  | line :: rest =>
    match plsLineMatch line.data with
    | some p =>
      if 0 < (pyStrip p).length then
        let audiofile := stripFileUri p
        if is_audio_file (String.mk audiofile) then
          String.mk audiofile :: extract_pls_paths rest
        else extract_pls_paths rest
      else extract_pls_paths rest
    | none => extract_pls_paths rest

/-- Embeds extract_m3u_paths: every non-blank line not beginning with a
hash contributes, after file URI stripping and decoding, if it is a
recognized audio file. -/
def extract_m3u_paths : List String → List String
  | [] => []
  | line :: rest =>
    if line.data.head?.elim false (fun c => c ≠ '#') ∧ 0 < (pyStrip line.data).length then
      let audiofile := stripFileUri line.data
      if is_audio_file (String.mk audiofile) then
        String.mk audiofile :: extract_m3u_paths rest
      else extract_m3u_paths rest
    else extract_m3u_paths rest

/-- Embeds get_audiofile_paths_from_playlist: dispatch on the detected
playlist type, else raise UnsupportedFileError.  The chdir into the
playlist directory followed by os.path.abspath on each entry is abstracted
as the resolveAbs parameter; the file contents are passed as lines. -/
def get_audiofile_paths_from_playlist (resolveAbs : String → String)
    (filename : String) (lines : List String) : Except String (List String) :=
  if is_pls_playlist filename then .ok ((extract_pls_paths lines).map resolveAbs)
  else if is_m3u_playlist filename then .ok ((extract_m3u_paths lines).map resolveAbs)
  else .error ("Unknown playlist type: " ++ filename)

/-- C3: code_bug evidence.  The claim (and the contract) says a playlist
file ending in m3u8 is parsed by the M3U line grammar; in fact the loop in
is_m3u_playlist tests the hardcoded m3u pattern instead of its loop
variable, the m3u8 name matches no playlist type, and playlist processing
raises UnsupportedFileError for it — even though the iterated-but-unused
m3u8 pattern itself does match the name. -/
theorem m3u8_playlist_rejected :
    is_m3u_playlist "list.m3u8" = false ∧
    is_playlist "list.m3u8" = false ∧
    (∀ (resolveAbs : String → String) (lines : List String),
      get_audiofile_paths_from_playlist resolveAbs "list.m3u8" lines =
        .error "Unknown playlist type: list.m3u8") ∧
    fnmatchStar ("list.m3u8".data.map pyLowerChar) "*.m3u8" = true := by
  refine ⟨by decide, by decide, ?_, by decide⟩
  intro resolveAbs lines
  unfold get_audiofile_paths_from_playlist
  rw [show is_pls_playlist "list.m3u8" = false from by decide,
    show is_m3u_playlist "list.m3u8" = false from by decide]
  simp

/-- Written from the words of claim C9: the path values of the lines
matching the File-number-equals form with the number a positive integer
and a non-blank path, in file-line order, with file URIs stripped and
percent-decoded (no audio-type filtering). -/
def plsLineMatchPositiveN (line : List Char) : Option (List Char) :=
  if "File".data.isPrefixOf line then
    let rest := line.drop 4
    let ds := rest.takeWhile Char.isDigit
    let rest2 := rest.drop ds.length
    if ds ≠ [] ∧ 0 < digitsVal ds ∧ rest2.head? = some '=' then some rest2.tail
    else none
  else none

/-- Written from the words of claim C9, list level: see
plsLineMatchPositiveN. -/
def plsPathsClaim (lines : List String) : List String :=
  lines.filterMap (fun line =>
    match plsLineMatchPositiveN line.data with
    | some p =>
      if 0 < (pyStrip p).length then some (String.mk (stripFileUri p)) else none
    | none => none)

/-- Amended reading of claim C9: the number is any run of decimal digits
(zero accepted), and only paths recognized as audio files after URI
stripping and decoding are kept. -/
def plsPathsAmended (lines : List String) : List String :=
  lines.filterMap (fun line =>
    match plsLineMatch line.data with
    | some p =>
      if 0 < (pyStrip p).length ∧ is_audio_file (String.mk (stripFileUri p)) then
        some (String.mk (stripFileUri p))
      else none
    | none => none)

/-- C9: counterexample.  A line numbered zero with an audio path is kept
by the code but excluded by the claim wording; a positively numbered line
with a non-audio path is excluded by the code but kept by the claim
wording. -/
theorem extract_pls_paths_claim_counterexample :
    extract_pls_paths ["File0=a.mp3", "File1=b.txt"] = ["a.mp3"] ∧
    plsPathsClaim ["File0=a.mp3", "File1=b.txt"] = ["b.txt"] ∧
    extract_pls_paths ["File0=a.mp3", "File1=b.txt"] ≠
      plsPathsClaim ["File0=a.mp3", "File1=b.txt"] := by
  refine ⟨?_, ?_, ?_⟩ <;> decide

/-- C9 amended: extract_pls_paths returns exactly the amended selection,
for every list of lines. -/
theorem extract_pls_paths_eq_amended (lines : List String) :
    extract_pls_paths lines = plsPathsAmended lines := by
  induction lines with
  | nil => rfl
  | cons line rest ih =>
    unfold extract_pls_paths plsPathsAmended
    rw [List.filterMap_cons]
    cases hm : plsLineMatch line.data with
    | none =>
      simp only [hm]
      exact ih
    | some p =>
      simp only [hm]
      unfold plsPathsAmended at ih
      by_cases h1 : 0 < (pyStrip p).length
      · by_cases h2 : is_audio_file (String.mk (stripFileUri p))
        · simp [h1, h2, ih]
        · simp [h1, h2, ih]
      · simp [h1, ih]

/-!
Work-unit planner: embeds Status, OverwriteMode, WorkUnit and
prepare_work_units.
-/

/-- Embeds the Status enumeration. -/
inductive Status
  | INIT
  | READY
  | SKIPPED_NAME_COLLISION
  | SKIPPED_TARGETPATH_EXISTS
  | SKIPPED_TARGETPATH_NEWER
  | SKIPPED_TARGETPATH_EQ_SOURCEPATH
  | SKIPPED_GENERATE_TARGETPATH
  | FAILED_ABORTED
  | FAILED_FFMPEG
  | FAILED_IO
  | COMPLETED
deriving DecidableEq, Repr

/-- Embeds OverwriteMode. -/
inductive OverwriteMode
  | NO_OVERWRITE
  | OVERWRITE
  | OVERWRITE_IF_OLDER
deriving DecidableEq, Repr

/-- Value found in the status field of a WorkUnit: either a member of the
Status enumeration, or the Status class object itself, which is what the
source constructor actually stores. -/
inductive StatusVal
  | statusClass
  | member (s : Status)
deriving DecidableEq, Repr

/-- Embeds WorkUnit. -/
structure WorkUnit where
  source : Source
  status : StatusVal
  targetpath : Option String
deriving DecidableEq, Repr

/-- Embeds the WorkUnit constructor with its parameters (call sites use
the defaults INIT and no target path).  The body assigns the Status class
object itself to the status field instead of the status parameter, which
is therefore ignored — this is the defect recorded under C7. -/
def WorkUnit.make (source : Source) (status : Status)
    (targetpath : Option String) : WorkUnit :=
  ⟨source, StatusVal.statusClass, targetpath⟩

/-- C7: code_bug evidence.  The claim says every WorkUnit is created with
status INIT, a member of the Status enumeration; in fact the constructor
stores the Status enumeration class object itself (and ignores its status
parameter entirely), so a freshly created unit does not hold INIT. -/
theorem work_unit_not_created_with_INIT :
    ∀ (s : Source) (st : Status) (tp : Option String),
      (WorkUnit.make s st tp).status = StatusVal.statusClass ∧
      (WorkUnit.make s st tp).status ≠ StatusVal.member Status.INIT := by
  intro s st tp
  exact ⟨rfl, fun h => StatusVal.noConfusion h⟩

/-- Filesystem metadata collaborator of the planner: existence and
modification time, per path. -/
structure Fs where
  pathExists : String → Bool
  getmtime : String → Int

/-- Truthiness of an optional string in Python: present and non-empty. -/
def truthyOptStr : Option String → Bool
  | none => false
  | some s => s ≠ ""

/-- Per-invocation environment of prepare_work_units: the destination
directory, the two naming templates and the overwrite mode of the source
signature, together with the modelled collaborators — the target path
generator (generate_target_path closed over the tag environment) and the
filesystem metadata reads. -/
structure PlanEnv where
  gen : Source → String → String → String
  destdir : String
  naming_template : String
  playlist_naming_template : String
  fs : Fs
  overwritemode : OverwriteMode

/-- Embeds the per-source template selection and generate_target_path
call of the planner loop: the playlist template is used exactly when the
source carries a truthy playlist file. -/
def plannedTarget (env : PlanEnv) (s : Source) : String :=
  env.gen s
    (if truthyOptStr s.playlist_file then env.playlist_naming_template
     else env.naming_template)
    env.destdir

/-- Embeds one iteration of the planner loop: create the unit, compute
its target path, then run the checks in source order — generation
failure, self-overwrite, collision against already-claimed targets,
filesystem existence under the overwrite policy — and otherwise mark the
unit READY.  Returns the finished unit and the updated claimed-target
map. -/
def processSource (env : PlanEnv) (tps : List (String × Source)) (s : Source) :
    WorkUnit × List (String × Source) :=
  let u := WorkUnit.make s Status.INIT none
  let targetpath := plannedTarget env s
  if targetpath = "" then
    ({ u with status := .member .SKIPPED_GENERATE_TARGETPATH }, tps)
  else
    let u := { u with targetpath := some targetpath }
    if s.filepath = targetpath then
      ({ u with status := .member .SKIPPED_TARGETPATH_EQ_SOURCEPATH }, tps)
    else if (tps.lookup targetpath).isSome then
      ({ u with status := .member .SKIPPED_NAME_COLLISION }, tps)
    else
      let tps2 := (targetpath, s) :: tps
      if env.fs.pathExists targetpath then
        match env.overwritemode with
        | .NO_OVERWRITE =>
          ({ u with status := .member .SKIPPED_TARGETPATH_EXISTS }, tps2)
        | .OVERWRITE_IF_OLDER =>
          if env.fs.getmtime s.filepath ≤ env.fs.getmtime targetpath then
            ({ u with status := .member .SKIPPED_TARGETPATH_NEWER }, tps2)
          else ({ u with status := .member .READY }, tps2)
        | .OVERWRITE => ({ u with status := .member .READY }, tps2)
      else ({ u with status := .member .READY }, tps2)

/-- Embeds the planner loop over the source list, carrying the
claimed-target map. -/
def planFrom (env : PlanEnv) : List (String × Source) → List Source → List WorkUnit
  | _, [] => []
  | tps, s :: rest =>
    let r := processSource env tps s
    r.1 :: planFrom env r.2 rest

/-- Embeds prepare_work_units: plan every source starting from an empty
claimed-target map. -/
def prepare_work_units (env : PlanEnv) (sources : List Source) : List WorkUnit :=
  planFrom env [] sources

/-- Helper: the planner produces one unit per source. -/
theorem planFrom_length (env : PlanEnv) :
    ∀ (l : List Source) (tps : List (String × Source)),
      (planFrom env tps l).length = l.length := by
  intro l
  induction l with
  | nil => intro tps; rfl
  | cons s rest ih => intro tps; simp [planFrom, ih]

/-- Helper: prepare_work_units produces one unit per source. -/
theorem prepare_work_units_length (env : PlanEnv) (sources : List Source) :
    (prepare_work_units env sources).length = sources.length :=
  planFrom_length env sources []

/-- Status given to a unit that survives the generation, self-overwrite
and collision checks: decided by filesystem existence under the overwrite
policy. -/
def statusWhenOpen (env : PlanEnv) (s : Source) : Status :=
  if env.fs.pathExists (plannedTarget env s) then
    match env.overwritemode with
    | .NO_OVERWRITE => .SKIPPED_TARGETPATH_EXISTS
    | .OVERWRITE_IF_OLDER =>
      if env.fs.getmtime s.filepath ≤ env.fs.getmtime (plannedTarget env s) then
        .SKIPPED_TARGETPATH_NEWER
      else .READY
    | .OVERWRITE => .READY
  else .READY

/-- Helper: a step whose target generates, differs from the source path
and is unclaimed claims the target and gets the open-path status. -/
theorem processSource_open (env : PlanEnv) (tps : List (String × Source)) (s : Source)
    (h1 : plannedTarget env s ≠ "") (h2 : s.filepath ≠ plannedTarget env s)
    (h3 : tps.lookup (plannedTarget env s) = none) :
    processSource env tps s =
      (⟨s, .member (statusWhenOpen env s), some (plannedTarget env s)⟩,
        (plannedTarget env s, s) :: tps) := by
  unfold processSource statusWhenOpen
  dsimp only
  rw [if_neg h1, if_neg h2]
  simp only [h3, Option.isSome_none, Bool.false_eq_true, if_false]
  by_cases h4 : env.fs.pathExists (plannedTarget env s)
  · simp only [h4, if_true]
    cases env.overwritemode
    · rfl
    · rfl
    · by_cases h5 : env.fs.getmtime s.filepath ≤ env.fs.getmtime (plannedTarget env s) <;>
        simp [h5, WorkUnit.make]
  · simp [h4, WorkUnit.make]

/-- Helper: a step whose target generates, differs from the source path
but is already claimed is marked as a collision with the map unchanged. -/
theorem processSource_collision (env : PlanEnv) (tps : List (String × Source))
    (s : Source) (h1 : plannedTarget env s ≠ "")
    (h2 : s.filepath ≠ plannedTarget env s)
    (h3 : (tps.lookup (plannedTarget env s)).isSome = true) :
    processSource env tps s =
      (⟨s, .member .SKIPPED_NAME_COLLISION, some (plannedTarget env s)⟩, tps) := by
  unfold processSource
  dsimp only
  rw [if_neg h1, if_neg h2, if_pos h3]
  rfl

/-- Helper: each step leaves the claimed-target map unchanged or conses
its own planned target onto it. -/
theorem processSource_dict_cases (env : PlanEnv) (tps : List (String × Source))
    (s : Source) :
    (processSource env tps s).2 = tps ∨
    (processSource env tps s).2 = (plannedTarget env s, s) :: tps := by
  unfold processSource
  dsimp only
  repeat' split
  all_goals first | exact Or.inl rfl | exact Or.inr rfl

/-- Helper: a claimed key stays claimed across a step. -/
theorem processSource_dict_grows (env : PlanEnv) (tps : List (String × Source))
    (s : Source) (q : String) (h : (tps.lookup q).isSome = true) :
    (((processSource env tps s).2).lookup q).isSome = true := by
  rcases processSource_dict_cases env tps s with hc | hc <;> rw [hc]
  · exact h
  · cases hq : (q == plannedTarget env s) <;> simp [List.lookup, hq, h]

/-- Helper: a key different from the planned target of the step stays
unclaimed across the step. -/
theorem processSource_dict_nokey (env : PlanEnv) (tps : List (String × Source))
    (s : Source) (q : String) (hne : plannedTarget env s ≠ q)
    (h : tps.lookup q = none) : ((processSource env tps s).2).lookup q = none := by
  rcases processSource_dict_cases env tps s with hc | hc <;> rw [hc]
  · exact h
  · cases hq : (q == plannedTarget env s) with
    | true => exact absurd (eq_of_beq hq).symm hne
    | false => simp [List.lookup, hq, h]

/-- Helper: a unit marked READY had an unclaimed target, records it in
its target path field, and its step claims the key. -/
theorem processSource_ready_inv (env : PlanEnv) (tps : List (String × Source))
    (s : Source) (h : (processSource env tps s).1.status = .member .READY) :
    tps.lookup (plannedTarget env s) = none ∧
    (processSource env tps s).1.targetpath = some (plannedTarget env s) ∧
    (((processSource env tps s).2).lookup (plannedTarget env s)).isSome = true := by
  by_cases h1 : plannedTarget env s = ""
  · exfalso
    unfold processSource at h
    dsimp only at h
    rw [if_pos h1] at h
    exact absurd h (by simp [WorkUnit.make])
  by_cases h2 : s.filepath = plannedTarget env s
  · exfalso
    unfold processSource at h
    dsimp only at h
    rw [if_neg h1, if_pos h2] at h
    exact absurd h (by simp [WorkUnit.make])
  by_cases h3 : (tps.lookup (plannedTarget env s)).isSome = true
  · exfalso
    rw [processSource_collision env tps s h1 h2 h3] at h
    exact absurd h (by simp)
  have hnone : tps.lookup (plannedTarget env s) = none :=
    Option.not_isSome_iff_eq_none.mp (by simpa using h3)
  refine ⟨hnone, ?_, ?_⟩ <;>
    rw [processSource_open env tps s h1 h2 hnone] <;>
    simp [List.lookup]

/-- Helper: unfolding equation of the planner loop. -/
theorem planFrom_cons (env : PlanEnv) (tps : List (String × Source)) (s : Source)
    (rest : List Source) :
    planFrom env tps (s :: rest) =
      (processSource env tps s).1 :: planFrom env (processSource env tps s).2 rest := rfl

/-- Helper: a source whose planned target is already claimed when its
turn comes is marked as a name collision, wherever it sits in the list. -/
theorem collision_from (env : PlanEnv) :
    ∀ (l : List Source) (tps : List (String × Source)) (j : Nat) (sj : Source)
      (p : String),
      l[j]? = some sj → (tps.lookup p).isSome = true →
      plannedTarget env sj = p → p ≠ "" → sj.filepath ≠ p →
      ∃ uj, (planFrom env tps l)[j]? = some uj ∧
        uj.status = .member .SKIPPED_NAME_COLLISION := by
  intro l
  induction l with
  | nil =>
    intro tps j sj p hj hkey hg hne hfp
    simp at hj
  | cons s rest ih =>
    intro tps j sj p hj hkey hg hne hfp
    cases j with
    | zero =>
      simp only [List.getElem?_cons_zero, Option.some.injEq] at hj
      subst hj
      rw [planFrom_cons,
        processSource_collision env tps s (by rw [hg]; exact hne)
          (by rw [hg]; exact hfp) (by rw [hg]; exact hkey)]
      exact ⟨⟨s, .member .SKIPPED_NAME_COLLISION, some (plannedTarget env s)⟩,
        by simp, rfl⟩
    | succ k =>
      rw [planFrom_cons]
      simp only [List.getElem?_cons_succ] at hj ⊢
      exact ih (processSource env tps s).2 k sj p hj
        (processSource_dict_grows env tps s p hkey) hg hne hfp

/-- Helper: planner precedence over the whole list — the first source
claiming an unclaimed, non-existing target is READY and any later source
with the same target is a name collision. -/
theorem c1_from (env : PlanEnv) :
    ∀ (l : List Source) (tps : List (String × Source)) (i j : Nat)
      (si sj : Source) (p : String),
      i < j → l[i]? = some si → l[j]? = some sj →
      tps.lookup p = none →
      (∀ k sk, k < i → l[k]? = some sk → plannedTarget env sk ≠ p) →
      plannedTarget env si = p → plannedTarget env sj = p →
      p ≠ "" → si.filepath ≠ p → sj.filepath ≠ p →
      env.fs.pathExists p = false →
      ∃ ui uj, (planFrom env tps l)[i]? = some ui ∧
        (planFrom env tps l)[j]? = some uj ∧
        ui.status = .member .READY ∧
        uj.status = .member .SKIPPED_NAME_COLLISION := by
  intro l
  induction l with
  | nil =>
    intro tps i j si sj p hij hi hj hnokey hfirst hgi hgj hne hfpi hfpj hex
    simp at hi
  | cons s rest ih =>
    intro tps i j si sj p hij hi hj hnokey hfirst hgi hgj hne hfpi hfpj hex
    cases i with
    | zero =>
      simp only [List.getElem?_cons_zero, Option.some.injEq] at hi
      subst hi
      cases j with
      | zero => omega
      | succ k =>
        simp only [List.getElem?_cons_succ] at hj
        rw [planFrom_cons,
          processSource_open env tps s (by rw [hgi]; exact hne)
            (by rw [hgi]; exact hfpi) (by rw [hgi]; exact hnokey)]
        have hst : statusWhenOpen env s = .READY := by
          unfold statusWhenOpen
          rw [hgi, hex]
          simp
        have hkey : (((plannedTarget env s, s) :: tps).lookup p).isSome = true := by
          rw [hgi]
          simp [List.lookup]
        obtain ⟨uj, huj, hstj⟩ :=
          collision_from env rest ((plannedTarget env s, s) :: tps) k sj p hj hkey
            hgj hne hfpj
        exact ⟨⟨s, .member (statusWhenOpen env s), some (plannedTarget env s)⟩, uj,
          by simp, by simpa using huj, by simp [hst], hstj⟩
    | succ i2 =>
      cases j with
      | zero => omega
      | succ k =>
        simp only [List.getElem?_cons_succ] at hi hj
        rw [planFrom_cons]
        have hne0 : plannedTarget env s ≠ p :=
          hfirst 0 s (Nat.zero_lt_succ _) (by simp)
        have hnokey2 := processSource_dict_nokey env tps s p hne0 hnokey
        have hfirst2 : ∀ k2 sk, k2 < i2 → rest[k2]? = some sk →
            plannedTarget env sk ≠ p := fun k2 sk hk hsk =>
          hfirst (k2 + 1) sk (Nat.succ_lt_succ hk) (by simpa using hsk)
        obtain ⟨ui, uj, hui, huj, h1, h2⟩ :=
          ih (processSource env tps s).2 i2 k si sj p (Nat.lt_of_succ_lt_succ hij)
            hi hj hnokey2 hfirst2 hgi hgj hne hfpi hfpj hex
        exact ⟨ui, uj, by simpa using hui, by simpa using huj, h1, h2⟩

/-- C1: the planner assigns READY to the first source claiming a shared
never-existing target path and SKIPPED_NAME_COLLISION to the later source,
for every overwrite mode, so it never assigns READY to both: the
collision check precedes the existence and overwrite checks. -/
theorem prepare_work_units_first_seen_wins (env : PlanEnv) (sources : List Source)
    (i j : Nat) (si sj : Source) (p : String)
    (hij : i < j) (hi : sources[i]? = some si) (hj : sources[j]? = some sj)
    (hdist : si ≠ sj)
    (hfirst : ∀ k sk, k < i → sources[k]? = some sk → plannedTarget env sk ≠ p)
    (hgi : plannedTarget env si = p) (hgj : plannedTarget env sj = p)
    (hne : p ≠ "") (hfpi : si.filepath ≠ p) (hfpj : sj.filepath ≠ p)
    (hex : env.fs.pathExists p = false) :
    ∃ ui uj, (prepare_work_units env sources)[i]? = some ui ∧
      (prepare_work_units env sources)[j]? = some uj ∧
      ui.status = .member .READY ∧
      uj.status = .member .SKIPPED_NAME_COLLISION ∧
      ¬(ui.status = .member .READY ∧ uj.status = .member .READY) := by
  obtain ⟨ui, uj, h1, h2, h3, h4⟩ :=
    c1_from env sources [] i j si sj p hij hi hj rfl hfirst hgi hgj hne hfpi hfpj hex
  refine ⟨ui, uj, h1, h2, h3, h4, ?_⟩
  intro ⟨_, hc⟩
  rw [h4] at hc
  exact absurd hc (by simp)

/-- C1, witness: two distinct sources planned to the same fresh target
path; the first is READY, the second a collision. -/
theorem prepare_work_units_first_seen_wins_witness :
    ∃ ui uj,
      (prepare_work_units
        ⟨fun _ _ _ => "/d/x.mp3", "/d", "nt", "pt",
          ⟨fun _ => false, fun _ => 0⟩, .NO_OVERWRITE⟩
        [⟨"/a.mp3", ⟨Codec.mp3, false, none, none⟩, 1, 2, none, none, none⟩,
         ⟨"/b.mp3", ⟨Codec.mp3, false, none, none⟩, 2, 2, none, none, none⟩])[0]? =
        some ui ∧
      (prepare_work_units
        ⟨fun _ _ _ => "/d/x.mp3", "/d", "nt", "pt",
          ⟨fun _ => false, fun _ => 0⟩, .NO_OVERWRITE⟩
        [⟨"/a.mp3", ⟨Codec.mp3, false, none, none⟩, 1, 2, none, none, none⟩,
         ⟨"/b.mp3", ⟨Codec.mp3, false, none, none⟩, 2, 2, none, none, none⟩])[1]? =
        some uj ∧
      ui.status = .member .READY ∧
      uj.status = .member .SKIPPED_NAME_COLLISION ∧
      ¬(ui.status = .member .READY ∧ uj.status = .member .READY) :=
  prepare_work_units_first_seen_wins
    ⟨fun _ _ _ => "/d/x.mp3", "/d", "nt", "pt",
      ⟨fun _ => false, fun _ => 0⟩, .NO_OVERWRITE⟩
    [⟨"/a.mp3", ⟨Codec.mp3, false, none, none⟩, 1, 2, none, none, none⟩,
     ⟨"/b.mp3", ⟨Codec.mp3, false, none, none⟩, 2, 2, none, none, none⟩]
    0 1
    ⟨"/a.mp3", ⟨Codec.mp3, false, none, none⟩, 1, 2, none, none, none⟩
    ⟨"/b.mp3", ⟨Codec.mp3, false, none, none⟩, 2, 2, none, none, none⟩
    "/d/x.mp3" (by decide) (by decide) (by decide) (by decide)
    (fun k sk hk _ => absurd hk (Nat.not_lt_zero k))
    (by decide) (by decide) (by decide) (by decide) (by decide) (by decide)

/-- Helper: a source whose planned target is not claimed by any earlier
source receives the open-path status decided by the filesystem and the
overwrite mode. -/
theorem c6_from (env : PlanEnv) :
    ∀ (l : List Source) (tps : List (String × Source)) (i : Nat) (si : Source)
      (p : String),
      l[i]? = some si → tps.lookup p = none →
      (∀ k sk, k < i → l[k]? = some sk → plannedTarget env sk ≠ p) →
      plannedTarget env si = p → p ≠ "" → si.filepath ≠ p →
      ∃ ui, (planFrom env tps l)[i]? = some ui ∧
        ui.status = .member (statusWhenOpen env si) := by
  intro l
  induction l with
  | nil =>
    intro tps i si p hi hnokey hfirst hgi hne hfp
    simp at hi
  | cons s rest ih =>
    intro tps i si p hi hnokey hfirst hgi hne hfp
    cases i with
    | zero =>
      simp only [List.getElem?_cons_zero, Option.some.injEq] at hi
      subst hi
      rw [planFrom_cons,
        processSource_open env tps s (by rw [hgi]; exact hne)
          (by rw [hgi]; exact hfp) (by rw [hgi]; exact hnokey)]
      exact ⟨⟨s, .member (statusWhenOpen env s), some (plannedTarget env s)⟩,
        by simp, rfl⟩
    | succ i2 =>
      simp only [List.getElem?_cons_succ] at hi
      rw [planFrom_cons]
      have hne0 : plannedTarget env s ≠ p :=
        hfirst 0 s (Nat.zero_lt_succ _) (by simp)
      have hnokey2 := processSource_dict_nokey env tps s p hne0 hnokey
      have hfirst2 : ∀ k2 sk, k2 < i2 → rest[k2]? = some sk →
          plannedTarget env sk ≠ p := fun k2 sk hk hsk =>
        hfirst (k2 + 1) sk (Nat.succ_lt_succ hk) (by simpa using hsk)
      obtain ⟨ui, hui, h1⟩ :=
        ih (processSource env tps s).2 i2 si p hi hnokey2 hfirst2 hgi hne hfp
      exact ⟨ui, by simpa using hui, h1⟩

/-- C6: overwrite-mode dispositions for a source whose target path exists
and on which no earlier skip applied — NO_OVERWRITE skips as existing,
OVERWRITE is READY unconditionally, OVERWRITE_IF_OLDER skips as newer
exactly when the mtime of the target is at least the mtime of the source
and is READY when the source is strictly newer. -/
theorem prepare_work_units_overwrite_modes (env : PlanEnv) (sources : List Source)
    (i : Nat) (si : Source) (p : String)
    (hi : sources[i]? = some si)
    (hfirst : ∀ k sk, k < i → sources[k]? = some sk → plannedTarget env sk ≠ p)
    (hgi : plannedTarget env si = p) (hne : p ≠ "") (hfp : si.filepath ≠ p)
    (hex : env.fs.pathExists p = true) :
    ∃ ui, (prepare_work_units env sources)[i]? = some ui ∧
      ui.status = .member (match env.overwritemode with
        | .NO_OVERWRITE => .SKIPPED_TARGETPATH_EXISTS
        | .OVERWRITE => .READY
        | .OVERWRITE_IF_OLDER =>
          if env.fs.getmtime si.filepath ≤ env.fs.getmtime p then
            .SKIPPED_TARGETPATH_NEWER
          else .READY) := by
  obtain ⟨ui, hui, hst⟩ :=
    c6_from env sources [] i si p hi rfl hfirst hgi hne hfp
  refine ⟨ui, hui, ?_⟩
  rw [hst]
  unfold statusWhenOpen
  rw [hgi, hex]
  simp only [if_true]
  cases env.overwritemode <;> rfl

/-- C6, witness: a single source whose target exists and is newer, under
OVERWRITE_IF_OLDER, receives SKIPPED_TARGETPATH_NEWER. -/
theorem prepare_work_units_overwrite_modes_witness :
    ∃ ui,
      (prepare_work_units
        ⟨fun _ _ _ => "/d/x.mp3", "/d", "nt", "pt",
          ⟨fun _ => true, fun q => if q = "/d/x.mp3" then 5 else 3⟩,
          .OVERWRITE_IF_OLDER⟩
        [⟨"/a.mp3", ⟨Codec.mp3, false, none, none⟩, 1, 1, none, none, none⟩])[0]? =
        some ui ∧
      ui.status = .member
        (match (⟨fun _ _ _ => "/d/x.mp3", "/d", "nt", "pt",
          ⟨fun _ => true, fun q => if q = "/d/x.mp3" then 5 else 3⟩,
          .OVERWRITE_IF_OLDER⟩ : PlanEnv).overwritemode with
        | .NO_OVERWRITE => .SKIPPED_TARGETPATH_EXISTS
        | .OVERWRITE => .READY
        | .OVERWRITE_IF_OLDER =>
          if (⟨fun _ _ _ => "/d/x.mp3", "/d", "nt", "pt",
              ⟨fun _ => true, fun q => if q = "/d/x.mp3" then 5 else 3⟩,
              .OVERWRITE_IF_OLDER⟩ : PlanEnv).fs.getmtime
              (⟨"/a.mp3", ⟨Codec.mp3, false, none, none⟩, 1, 1, none, none,
                none⟩ : Source).filepath ≤
            (⟨fun _ _ _ => "/d/x.mp3", "/d", "nt", "pt",
              ⟨fun _ => true, fun q => if q = "/d/x.mp3" then 5 else 3⟩,
              .OVERWRITE_IF_OLDER⟩ : PlanEnv).fs.getmtime "/d/x.mp3" then
            .SKIPPED_TARGETPATH_NEWER
          else .READY) :=
  prepare_work_units_overwrite_modes
    ⟨fun _ _ _ => "/d/x.mp3", "/d", "nt", "pt",
      ⟨fun _ => true, fun q => if q = "/d/x.mp3" then 5 else 3⟩,
      .OVERWRITE_IF_OLDER⟩
    [⟨"/a.mp3", ⟨Codec.mp3, false, none, none⟩, 1, 1, none, none, none⟩]
    0 ⟨"/a.mp3", ⟨Codec.mp3, false, none, none⟩, 1, 1, none, none, none⟩
    "/d/x.mp3" (by decide)
    (fun k sk hk _ => absurd hk (Nat.not_lt_zero k))
    (by decide) (by decide) (by decide) (by decide)

/-- Helper: once a target key is claimed, no later unit marked READY
records it as its target path. -/
theorem ready_not_key (env : PlanEnv) :
    ∀ (l : List Source) (tps : List (String × Source)) (j : Nat) (uj : WorkUnit)
      (q : String),
      (tps.lookup q).isSome = true →
      (planFrom env tps l)[j]? = some uj → uj.status = .member .READY →
      uj.targetpath ≠ some q := by
  intro l
  induction l with
  | nil =>
    intro tps j uj q hkey hj hready
    simp [planFrom] at hj
  | cons s rest ih =>
    intro tps j uj q hkey hj hready
    rw [planFrom_cons] at hj
    cases j with
    | zero =>
      simp only [List.getElem?_cons_zero, Option.some.injEq] at hj
      subst hj
      obtain ⟨hnone, htp, _⟩ := processSource_ready_inv env tps s hready
      rw [htp]
      intro hc
      injection hc with hc2
      rw [hc2] at hnone
      rw [hnone] at hkey
      exact absurd hkey (by simp)
    | succ k =>
      simp only [List.getElem?_cons_succ] at hj
      exact ih (processSource env tps s).2 k uj q
        (processSource_dict_grows env tps s q hkey) hj hready

/-- Helper: two READY units in one planning pass never record the same
target path. -/
theorem c10_from (env : PlanEnv) :
    ∀ (l : List Source) (tps : List (String × Source)) (i j : Nat)
      (ui uj : WorkUnit),
      i < j →
      (planFrom env tps l)[i]? = some ui → (planFrom env tps l)[j]? = some uj →
      ui.status = .member .READY → uj.status = .member .READY →
      ui.targetpath ≠ uj.targetpath := by
  intro l
  induction l with
  | nil =>
    intro tps i j ui uj hij hi hj hri hrj
    simp [planFrom] at hi
  | cons s rest ih =>
    intro tps i j ui uj hij hi hj hri hrj
    rw [planFrom_cons] at hi hj
    cases i with
    | zero =>
      simp only [List.getElem?_cons_zero, Option.some.injEq] at hi
      subst hi
      cases j with
      | zero => omega
      | succ k =>
        simp only [List.getElem?_cons_succ] at hj
        obtain ⟨_, htp, hkey⟩ := processSource_ready_inv env tps s hri
        have := ready_not_key env rest (processSource env tps s).2 k uj
          (plannedTarget env s) hkey hj hrj
        rw [htp]
        exact fun hc => this hc.symm
    | succ i2 =>
      cases j with
      | zero => omega
      | succ k =>
        simp only [List.getElem?_cons_succ] at hi hj
        exact ih (processSource env tps s).2 i2 k ui uj
          (Nat.lt_of_succ_lt_succ hij) hi hj hri hrj

/-- C10: no two work units both marked READY by one planning pass share
a target path — once a unit claims a target, every later unit generating
the same path receives a terminal non-READY status. -/
theorem prepare_work_units_ready_targets_distinct (env : PlanEnv)
    (sources : List Source) (i j : Nat) (ui uj : WorkUnit)
    (hij : i < j)
    (hi : (prepare_work_units env sources)[i]? = some ui)
    (hj : (prepare_work_units env sources)[j]? = some uj)
    (hri : ui.status = .member .READY) (hrj : uj.status = .member .READY) :
    ui.targetpath ≠ uj.targetpath :=
  c10_from env sources [] i j ui uj hij hi hj hri hrj

/-- C10, witness: two sources planned to distinct fresh targets are both
READY and the theorem yields their target paths distinct. -/
theorem prepare_work_units_ready_targets_distinct_witness :
    (prepare_work_units
      ⟨fun s _ _ => s.filepath ++ ".out", "/d", "nt", "pt",
        ⟨fun _ => false, fun _ => 0⟩, .NO_OVERWRITE⟩
      [⟨"/a.mp3", ⟨Codec.mp3, false, none, none⟩, 1, 2, none, none, none⟩,
       ⟨"/b.mp3", ⟨Codec.mp3, false, none, none⟩, 2, 2, none, none, none⟩])[0]? =
      some ⟨⟨"/a.mp3", ⟨Codec.mp3, false, none, none⟩, 1, 2, none, none, none⟩,
        .member .READY, some "/a.mp3.out"⟩ ∧
    (prepare_work_units
      ⟨fun s _ _ => s.filepath ++ ".out", "/d", "nt", "pt",
        ⟨fun _ => false, fun _ => 0⟩, .NO_OVERWRITE⟩
      [⟨"/a.mp3", ⟨Codec.mp3, false, none, none⟩, 1, 2, none, none, none⟩,
       ⟨"/b.mp3", ⟨Codec.mp3, false, none, none⟩, 2, 2, none, none, none⟩])[1]? =
      some ⟨⟨"/b.mp3", ⟨Codec.mp3, false, none, none⟩, 2, 2, none, none, none⟩,
        .member .READY, some "/b.mp3.out"⟩ ∧
    (⟨⟨"/a.mp3", ⟨Codec.mp3, false, none, none⟩, 1, 2, none, none, none⟩,
        .member .READY, some "/a.mp3.out"⟩ : WorkUnit).targetpath ≠
      (⟨⟨"/b.mp3", ⟨Codec.mp3, false, none, none⟩, 2, 2, none, none, none⟩,
        .member .READY, some "/b.mp3.out"⟩ : WorkUnit).targetpath :=
  ⟨by decide, by decide,
    prepare_work_units_ready_targets_distinct
      ⟨fun s _ _ => s.filepath ++ ".out", "/d", "nt", "pt",
        ⟨fun _ => false, fun _ => 0⟩, .NO_OVERWRITE⟩
      [⟨"/a.mp3", ⟨Codec.mp3, false, none, none⟩, 1, 2, none, none, none⟩,
       ⟨"/b.mp3", ⟨Codec.mp3, false, none, none⟩, 2, 2, none, none, none⟩]
      0 1
      ⟨⟨"/a.mp3", ⟨Codec.mp3, false, none, none⟩, 1, 2, none, none, none⟩,
        .member .READY, some "/a.mp3.out"⟩
      ⟨⟨"/b.mp3", ⟨Codec.mp3, false, none, none⟩, 2, 2, none, none, none⟩,
        .member .READY, some "/b.mp3.out"⟩
      (by decide) (by decide) (by decide) (by decide) (by decide)⟩

end MassAudioTranscoder
